import Mathlib

/-!
Shallow embedding of the two source files of the repository:

* `src/nodejs/graphql-node-review.ts` — GraphQL resolvers over a relational
  store (`users`, `settings` tables) with an outbound audit notification.
  Database effects are modelled by explicit state passing on a `DB` record,
  the audit HTTP call by a `sink` function parameter, the clock (`new Date()`)
  by a `now : Nat` parameter captured once per invocation, and
  `crypto.randomUUID()` by a counter-driven id supply in the `DB` state.
  Thrown JS errors become `Except` errors.

* `src/frontend/excercise-1.ts` — the async form-field `schemaValidator`.
  The remote validation call's outcome is a parameter: either it throws
  (`Except.error`) or returns a response that may carry an `error` field.
-/

/-- Rendering of a JS `Date` as `toISOString()`; timestamps are opaque ticks. -/
def toISOString (t : Nat) : String :=
  "1970-01-01T00:00:00." ++ toString t ++ "Z"

/-- Rendering of `crypto.randomUUID()` from the fresh-id counter. -/
def uuid (n : Nat) : String :=
  "uuid-" ++ toString n

inductive Role where
  | ADMIN
  | MEMBER
deriving Repr, DecidableEq

/-- A row of the `users` table (`interface Database.users`). -/
structure UserRow where
  id : String
  email : String
  role : Role
  created_at : Nat
deriving Repr, DecidableEq

/-- A row of the `settings` table (`interface Database.settings`). -/
structure SettingRow where
  id : String
  user_id : String
  key : String
  value : String
  updated_at : Nat
  updated_by : Option String
deriving Repr, DecidableEq

/-- The persistent store plus the fresh-id supply for `crypto.randomUUID()`. -/
structure DB where
  users : List UserRow
  settings : List SettingRow
  nextId : Nat
deriving Repr, DecidableEq

/-- A resolved user as returned by the resolvers:
`\x7b ...u, createdAt: u.created_at.toISOString() \x7d`. -/
structure UserView where
  id : String
  email : String
  role : Role
  createdAt : String
deriving Repr, DecidableEq

def mkUserView (u : UserRow) : UserView :=
  { id := u.id, email := u.email, role := u.role,
    createdAt := toISOString u.created_at }

/-- `Query.user`: point lookup, `null` when absent. -/
def userQuery (dbs : DB) (id : String) : Option UserView :=
  (dbs.users.find? (fun u => u.id == id)).map mkUserView

/-- `Query.users`: independent per-id lookups via `Promise.all(ids.map(...))`,
`null` (here `none`) at every position whose id matches no user. -/
def usersQuery (dbs : DB) (ids : List String) : List (Option UserView) :=
  ids.map (fun id => (dbs.users.find? (fun u => u.id == id)).map mkUserView)

/-- `User.settingsCount`: count of settings rows owned by the user. -/
def settingsCount (dbs : DB) (userId : String) : Nat :=
  (dbs.settings.filter (fun r => r.user_id == userId)).length

/-- One element of the `updated` accumulator in `Mutation.updateSettings`. -/
structure UpdatedEntry where
  id : String
  key : String
  value : String
  updatedAt : String
  updatedById : Option String
deriving Repr, DecidableEq

/-- The JSON body posted to `http://audit-service.internal/events`;
`atTime` models the `at` property of the payload. -/
structure AuditEvent where
  eventType : String
  userId : String
  actorId : Option String
  atTime : String
  changes : List (String × String)
deriving Repr, DecidableEq

/-- The observable part of the `fetch` response: `ok` and `status`. -/
structure AuditResp where
  ok : Bool
  status : Nat
deriving Repr, DecidableEq

/-- Errors thrown by `Mutation.updateSettings`. -/
inductive UpdateErr where
  | userNotFound
  | auditFailed (status : Nat)
deriving Repr, DecidableEq

/-- The message carried by each thrown `Error`. -/
def UpdateErr.message : UpdateErr → String
  | .userNotFound => "User not found"
  | .auditFailed status => "Audit service failed: " ++ toString status

/-- The GraphQL `SettingsPayload` returned on success. -/
structure SettingsPayload where
  success : Bool
  user : UserView
  settings : List UpdatedEntry
deriving Repr, DecidableEq

/-- Outcome of one `updateSettings` invocation: the returned payload or the
thrown error, the database state afterwards, and the audit calls made. -/
structure UpdateResult where
  result : Except UpdateErr SettingsPayload
  db : DB
  auditCalls : List AuditEvent
deriving Repr

/-- Replace the first row satisfying `p` by `r1`, keeping every other row:
the effect of SQL `ON CONFLICT ... DO UPDATE SET` under the uniqueness
constraint on `(user_id, key)`. -/
def replaceFirst (p : SettingRow → Bool) (r1 : SettingRow) :
    List SettingRow → List SettingRow
  | [] => []
  | r :: rs => if p r then r1 :: rs else r :: replaceFirst p r1 rs

/-- One iteration of the upsert loop:
`insertInto("settings").values(...).onConflict(oc.columns(["user_id","key"])
.doUpdateSet(\x7b value, updated_at: now \x7d)).returning(...)`.
On conflict only `value` and `updated_at` are set; `updated_by` and `id`
keep the existing row's values. Returns the row's final observed state
and the new store. -/
def upsertSetting (dbs : DB) (userId : String) (now : Nat)
    (ctxUserId : Option String) (key value : String) : SettingRow × DB :=
  let newId := uuid dbs.nextId
  match dbs.settings.find? (fun r => r.user_id == userId && r.key == key) with
  | some r0 =>
      let r1 : SettingRow := { r0 with value := value, updated_at := now }
      (r1, { dbs with
              settings :=
                replaceFirst (fun r => r.user_id == userId && r.key == key)
                  r1 dbs.settings,
              nextId := dbs.nextId + 1 })
  | none =>
      let r1 : SettingRow :=
        { id := newId, user_id := userId, key := key, value := value,
          updated_at := now, updated_by := ctxUserId }
      (r1, { dbs with
              settings := dbs.settings ++ [r1],
              nextId := dbs.nextId + 1 })

def mkEntry (r : SettingRow) : UpdatedEntry :=
  { id := r.id, key := r.key, value := r.value,
    updatedAt := toISOString r.updated_at, updatedById := r.updated_by }

/-- The `for (const \x7b key, value \x7d of settings)` loop: sequential upserts,
accumulating the returned rows in input order. -/
def runPairs (userId : String) (now : Nat) (ctxUserId : Option String) :
    DB → List (String × String) → DB × List UpdatedEntry
  | dbs, [] => (dbs, [])
  | dbs, (k, v) :: rest =>
      let step := upsertSetting dbs userId now ctxUserId k v
      let next := runPairs userId now ctxUserId step.2 rest
      (next.1, mkEntry step.1 :: next.2)

/-- The body posted to the audit service, built after the loop from the full
`updated` list. -/
def mkAuditEvent (userId : String) (ctxUserId : Option String) (now : Nat)
    (updated : List UpdatedEntry) : AuditEvent :=
  { eventType := "USER_SETTINGS_UPDATED", userId := userId,
    actorId := ctxUserId, atTime := toISOString now,
    changes := updated.map (fun s => (s.key, s.value)) }

/-- The single audit event an invocation with these arguments sends. -/
def auditEventOf (dbs : DB) (userId : String) (pairs : List (String × String))
    (ctxUserId : Option String) (now : Nat) : AuditEvent :=
  mkAuditEvent userId ctxUserId now (runPairs userId now ctxUserId dbs pairs).2

/-- `Mutation.updateSettings`. `sink` is the audit service (the `fetch` call);
`ctxUserId` is `ctx.userId`; `now` is the `new Date()` captured once. -/
def updateSettings (sink : AuditEvent → AuditResp) (dbs : DB) (userId : String)
    (pairs : List (String × String)) (ctxUserId : Option String) (now : Nat) :
    UpdateResult :=
  match dbs.users.find? (fun u => u.id == userId) with
  | none => { result := .error .userNotFound, db := dbs, auditCalls := [] }
  | some u =>
      let step := runPairs userId now ctxUserId dbs pairs
      let ev := mkAuditEvent userId ctxUserId now step.2
      let resp := sink ev
      if resp.ok then
        { result := .ok { success := true, user := mkUserView u,
                          settings := step.2 },
          db := step.1, auditCalls := [ev] }
      else
        { result := .error (.auditFailed resp.status),
          db := step.1, auditCalls := [ev] }

/-- The remote validation response of `excercise-1.ts`: `await validator(...)`
resolves to an object whose `error` field is absent on acceptance. -/
structure RemoteResult where
  error : Option String
deriving Repr, DecidableEq

/-- The `try` body of `schemaValidator`: await the remote call (which may
itself throw) and re-throw its semantic `error` when present. -/
def schemaValidatorBody (remote : Except String RemoteResult) :
    Except String Unit :=
  match remote with
  | .error e => .error e
  | .ok r =>
      match r.error with
      | some e => .error e
      | none => .ok ()

/-- `schemaValidator` of `src/frontend/excercise-1.ts`: empty value fails
with "Schema is required" before any remote call; any throw inside the
`try` (the remote call itself, or the `throw error` forwarding) is caught
and replaced by the generic "Invalid schema" error. -/
def schemaValidator (remote : Except String RemoteResult) (value : String) :
    Except String Unit :=
  if value = "" then .error "Schema is required"
  else
    match schemaValidatorBody remote with
    | .error _ => .error "Invalid schema"
    | .ok _ => .ok ()

/-! ## Concrete fixtures used by witnesses and counterexamples -/

def alice : UserRow :=
  { id := "u1", email := "alice@example.com", role := .ADMIN, created_at := 0 }

def exDB : DB :=
  { users := [alice], settings := [], nextId := 0 }

def seededRow : SettingRow :=
  { id := "s1", user_id := "u1", key := "k", value := "v1",
    updated_at := 1, updated_by := some "carol" }

def seededDB : DB :=
  { users := [alice], settings := [seededRow], nextId := 0 }

def okSink : AuditEvent → AuditResp :=
  fun _ => { ok := true, status := 200 }

def badSink : AuditEvent → AuditResp :=
  fun _ => { ok := false, status := 503 }

/-! ## Helper lemmas -/

theorem runPairs_nil (userId : String) (now : Nat) (ctx : Option String)
    (dbs : DB) : runPairs userId now ctx dbs [] = (dbs, []) := rfl

theorem runPairs_cons (userId : String) (now : Nat) (ctx : Option String)
    (dbs : DB) (k v : String) (rest : List (String × String)) :
    runPairs userId now ctx dbs ((k, v) :: rest) =
      ((runPairs userId now ctx (upsertSetting dbs userId now ctx k v).2 rest).1,
       mkEntry (upsertSetting dbs userId now ctx k v).1 ::
         (runPairs userId now ctx (upsertSetting dbs userId now ctx k v).2 rest).2) :=
  rfl

theorem upsertSetting_fst_fields (dbs : DB) (userId : String) (now : Nat)
    (ctx : Option String) (k v : String) :
    (upsertSetting dbs userId now ctx k v).1.key = k ∧
    (upsertSetting dbs userId now ctx k v).1.value = v ∧
    (upsertSetting dbs userId now ctx k v).1.updated_at = now ∧
    (upsertSetting dbs userId now ctx k v).1.user_id = userId := by
  unfold upsertSetting
  cases hf : dbs.settings.find? (fun r => r.user_id == userId && r.key == k) with
  | none => simp
  | some r0 =>
      have hp := List.find?_some hf
      simp only [Bool.and_eq_true, beq_iff_eq] at hp
      simp [hp.1, hp.2]

theorem runPairs_map_kv (userId : String) (now : Nat) (ctx : Option String) :
    ∀ (pairs : List (String × String)) (dbs : DB),
      ((runPairs userId now ctx dbs pairs).2).map (fun s => (s.key, s.value)) =
        pairs := by
  intro pairs
  induction pairs with
  | nil => intro dbs; simp [runPairs_nil]
  | cons kv rest ih =>
      intro dbs
      obtain ⟨k, v⟩ := kv
      have h := upsertSetting_fst_fields dbs userId now ctx k v
      simp [runPairs_cons, ih, mkEntry, h.1, h.2.1]

theorem runPairs_length (userId : String) (now : Nat) (ctx : Option String)
    (pairs : List (String × String)) (dbs : DB) :
    ((runPairs userId now ctx dbs pairs).2).length = pairs.length := by
  have h := runPairs_map_kv userId now ctx pairs dbs
  have := congrArg List.length h
  simpa using this

theorem runPairs_updatedAt (userId : String) (now : Nat) (ctx : Option String) :
    ∀ (pairs : List (String × String)) (dbs : DB),
      ∀ e ∈ (runPairs userId now ctx dbs pairs).2,
        e.updatedAt = toISOString now := by
  intro pairs
  induction pairs with
  | nil => intro dbs e he; simp [runPairs_nil] at he
  | cons kv rest ih =>
      intro dbs e he
      obtain ⟨k, v⟩ := kv
      rw [runPairs_cons] at he
      rcases List.mem_cons.mp he with h | h
      · have hf := upsertSetting_fst_fields dbs userId now ctx k v
        rw [h]
        simp [mkEntry, hf.2.2.1]
      · exact ih _ e h

theorem mem_replaceFirst (p : SettingRow → Bool) (r1 : SettingRow) :
    ∀ (l : List SettingRow) (r : SettingRow),
      r ∈ replaceFirst p r1 l → r ∈ l ∨ r = r1 := by
  intro l
  induction l with
  | nil => intro r h; simp [replaceFirst] at h
  | cons x xs ih =>
      intro r h
      by_cases hp : p x
      · simp only [replaceFirst, if_pos hp] at h
        rcases List.mem_cons.mp h with h | h
        · right; exact h
        · left; exact List.mem_cons_of_mem _ h
      · simp only [replaceFirst, if_neg hp] at h
        rcases List.mem_cons.mp h with h | h
        · left; rw [h]; exact List.mem_cons_self _ _
        · rcases ih r h with h' | h'
          · left; exact List.mem_cons_of_mem _ h'
          · right; exact h'

theorem mem_replaceFirst_of_neg (p : SettingRow → Bool) (r1 : SettingRow) :
    ∀ (l : List SettingRow) (r : SettingRow),
      r ∈ l → p r = false → r ∈ replaceFirst p r1 l := by
  intro l
  induction l with
  | nil => intro r h _; simp at h
  | cons x xs ih =>
      intro r h hr
      rcases List.mem_cons.mp h with h | h
      · subst h
        simp only [replaceFirst, hr, Bool.false_eq_true, if_neg, not_false_iff]
        exact List.mem_cons_self _ _
      · by_cases hp : p x
        · simp only [replaceFirst, if_pos hp]
          exact List.mem_cons_of_mem _ h
        · simp only [replaceFirst, if_neg hp]
          exact List.mem_cons_of_mem _ (ih r h hr)

theorem self_mem_replaceFirst (p : SettingRow → Bool) (r1 : SettingRow) :
    ∀ (l : List SettingRow) (r0 : SettingRow),
      l.find? p = some r0 → r1 ∈ replaceFirst p r1 l := by
  intro l
  induction l with
  | nil => intro r0 h; simp at h
  | cons x xs ih =>
      intro r0 h
      by_cases hp : p x
      · simp only [replaceFirst, if_pos hp]
        exact List.mem_cons_self _ _
      · rw [List.find?_cons_of_neg _ hp] at h
        simp only [replaceFirst, if_neg hp]
        exact List.mem_cons_of_mem _ (ih r0 h)

theorem replaceFirst_countP (p : SettingRow → Bool) (r1 : SettingRow)
    (hr1 : p r1 = true) :
    ∀ l : List SettingRow,
      (replaceFirst p r1 l).countP p = l.countP p := by
  intro l
  induction l with
  | nil => rfl
  | cons x xs ih =>
      by_cases hp : p x
      · simp [replaceFirst, if_pos hp, List.countP_cons, hp, hr1]
      · simp [replaceFirst, if_neg hp, List.countP_cons, hp, ih]

theorem upsertSetting_fst_mem (dbs : DB) (userId : String) (now : Nat)
    (ctx : Option String) (k v : String) :
    (upsertSetting dbs userId now ctx k v).1 ∈
      (upsertSetting dbs userId now ctx k v).2.settings := by
  unfold upsertSetting
  cases hf : dbs.settings.find? (fun r => r.user_id == userId && r.key == k) with
  | none => simp
  | some r0 =>
      simp only
      exact self_mem_replaceFirst _ _ dbs.settings r0 hf

theorem upsertSetting_mem_settings (dbs : DB) (userId : String) (now : Nat)
    (ctx : Option String) (k v : String) (r : SettingRow)
    (h : r ∈ (upsertSetting dbs userId now ctx k v).2.settings) :
    r ∈ dbs.settings ∨ r.updated_at = now := by
  unfold upsertSetting at h
  cases hf : dbs.settings.find? (fun r => r.user_id == userId && r.key == k) with
  | none =>
      rw [hf] at h
      simp only [List.mem_append, List.mem_singleton] at h
      rcases h with h | h
      · left; exact h
      · right; rw [h]
  | some r0 =>
      rw [hf] at h
      simp only at h
      rcases mem_replaceFirst _ _ _ _ h with h' | h'
      · left; exact h'
      · right; rw [h']

theorem runPairs_mem_settings (userId : String) (now : Nat)
    (ctx : Option String) :
    ∀ (pairs : List (String × String)) (dbs : DB)
      (r : SettingRow), r ∈ (runPairs userId now ctx dbs pairs).1.settings →
      r ∈ dbs.settings ∨ r.updated_at = now := by
  intro pairs
  induction pairs with
  | nil => intro dbs r h; rw [runPairs_nil] at h; left; exact h
  | cons kv rest ih =>
      intro dbs r h
      obtain ⟨k, v⟩ := kv
      rw [runPairs_cons] at h
      simp only at h
      rcases ih _ r h with h' | h'
      · exact upsertSetting_mem_settings dbs userId now ctx k v r h'
      · right; exact h'

theorem upsertSetting_preserves_row (dbs : DB) (userId : String) (now : Nat)
    (ctx : Option String) (k v k' : String)
    (h : ∃ r ∈ dbs.settings, r.user_id = userId ∧ r.key = k' ∧
          r.updated_at = now) :
    ∃ r ∈ (upsertSetting dbs userId now ctx k v).2.settings,
      r.user_id = userId ∧ r.key = k' ∧ r.updated_at = now := by
  obtain ⟨r, hr, h1, h2, h3⟩ := h
  unfold upsertSetting
  cases hf : dbs.settings.find? (fun x => x.user_id == userId && x.key == k) with
  | none =>
      exact ⟨r, by simp [List.mem_append, hr], h1, h2, h3⟩
  | some r0 =>
      simp only
      by_cases hp : (r.user_id == userId && r.key == k) = true
      · have hp' : r.key = k := by
          simp only [Bool.and_eq_true, beq_iff_eq] at hp
          exact hp.2
        have h0 := List.find?_some hf
        simp only [Bool.and_eq_true, beq_iff_eq] at h0
        refine ⟨{ r0 with value := v, updated_at := now }, ?_, h0.1, ?_, rfl⟩
        · exact self_mem_replaceFirst _ _ dbs.settings r0 hf
        · show r0.key = k'
          rw [h0.2, ← hp', h2]
      · have hp' : (fun x => x.user_id == userId && x.key == k) r = false :=
          Bool.not_eq_true _ ▸ (by simpa using hp)
        exact ⟨r, mem_replaceFirst_of_neg _ _ dbs.settings r hr hp', h1, h2, h3⟩

theorem runPairs_preserves_row (userId : String) (now : Nat)
    (ctx : Option String) :
    ∀ (pairs : List (String × String)) (dbs : DB) (k' : String),
      (∃ r ∈ dbs.settings, r.user_id = userId ∧ r.key = k' ∧
        r.updated_at = now) →
      ∃ r ∈ (runPairs userId now ctx dbs pairs).1.settings,
        r.user_id = userId ∧ r.key = k' ∧ r.updated_at = now := by
  intro pairs
  induction pairs with
  | nil => intro dbs k' h; rw [runPairs_nil]; exact h
  | cons kv rest ih =>
      intro dbs k' h
      obtain ⟨k, v⟩ := kv
      rw [runPairs_cons]
      exact ih _ k' (upsertSetting_preserves_row dbs userId now ctx k v k' h)

theorem runPairs_commits (userId : String) (now : Nat) (ctx : Option String) :
    ∀ (pairs : List (String × String)) (dbs : DB) (k v : String),
      (k, v) ∈ pairs →
      ∃ r ∈ (runPairs userId now ctx dbs pairs).1.settings,
        r.user_id = userId ∧ r.key = k ∧ r.updated_at = now := by
  intro pairs
  induction pairs with
  | nil => intro dbs k v h; simp at h
  | cons kv rest ih =>
      intro dbs k v h
      obtain ⟨k0, v0⟩ := kv
      rw [runPairs_cons]
      simp only
      rcases List.mem_cons.mp h with h' | h'
      · obtain ⟨hk, hv⟩ := Prod.mk.injEq .. ▸ h'
        have hfields := upsertSetting_fst_fields dbs userId now ctx k0 v0
        apply runPairs_preserves_row
        refine ⟨(upsertSetting dbs userId now ctx k0 v0).1,
          upsertSetting_fst_mem dbs userId now ctx k0 v0,
          hfields.2.2.2, ?_, hfields.2.2.1⟩
        rw [hfields.1]
        cases h'
        rfl
      · exact ih _ k v h'

theorem users_find?_eq_none (dbs : DB) (userId : String)
    (h : ∀ u ∈ dbs.users, u.id ≠ userId) :
    dbs.users.find? (fun u => u.id == userId) = none := by
  rw [List.find?_eq_none]
  intro u hu
  simp [h u hu]

theorem updateSettings_eq_of_found (sink : AuditEvent → AuditResp) (dbs : DB)
    (userId : String) (pairs : List (String × String)) (ctx : Option String)
    (now : Nat) (u : UserRow)
    (hu : dbs.users.find? (fun x => x.id == userId) = some u) :
    updateSettings sink dbs userId pairs ctx now =
      if (sink (auditEventOf dbs userId pairs ctx now)).ok then
        { result := .ok { success := true, user := mkUserView u,
                          settings := (runPairs userId now ctx dbs pairs).2 },
          db := (runPairs userId now ctx dbs pairs).1,
          auditCalls := [auditEventOf dbs userId pairs ctx now] }
      else
        { result := .error
            (.auditFailed (sink (auditEventOf dbs userId pairs ctx now)).status),
          db := (runPairs userId now ctx dbs pairs).1,
          auditCalls := [auditEventOf dbs userId pairs ctx now] } := by
  unfold updateSettings auditEventOf
  rw [hu]

theorem updateSettings_db_of_found (sink : AuditEvent → AuditResp) (dbs : DB)
    (userId : String) (pairs : List (String × String)) (ctx : Option String)
    (now : Nat) (u : UserRow)
    (hu : dbs.users.find? (fun x => x.id == userId) = some u) :
    (updateSettings sink dbs userId pairs ctx now).db =
      (runPairs userId now ctx dbs pairs).1 := by
  rw [updateSettings_eq_of_found sink dbs userId pairs ctx now u hu]
  split <;> rfl

theorem updateSettings_auditCalls_of_found (sink : AuditEvent → AuditResp)
    (dbs : DB) (userId : String) (pairs : List (String × String))
    (ctx : Option String) (now : Nat) (u : UserRow)
    (hu : dbs.users.find? (fun x => x.id == userId) = some u) :
    (updateSettings sink dbs userId pairs ctx now).auditCalls =
      [auditEventOf dbs userId pairs ctx now] := by
  rw [updateSettings_eq_of_found sink dbs userId pairs ctx now u hu]
  split <;> rfl

theorem updateSettings_result_of_found_ok (sink : AuditEvent → AuditResp)
    (dbs : DB) (userId : String) (pairs : List (String × String))
    (ctx : Option String) (now : Nat) (u : UserRow)
    (hu : dbs.users.find? (fun x => x.id == userId) = some u)
    (hok : (sink (auditEventOf dbs userId pairs ctx now)).ok = true) :
    (updateSettings sink dbs userId pairs ctx now).result =
      .ok { success := true, user := mkUserView u,
            settings := (runPairs userId now ctx dbs pairs).2 } := by
  rw [updateSettings_eq_of_found sink dbs userId pairs ctx now u hu, if_pos hok]

theorem updateSettings_result_of_found_bad (sink : AuditEvent → AuditResp)
    (dbs : DB) (userId : String) (pairs : List (String × String))
    (ctx : Option String) (now : Nat) (u : UserRow)
    (hu : dbs.users.find? (fun x => x.id == userId) = some u)
    (hbad : (sink (auditEventOf dbs userId pairs ctx now)).ok = false) :
    (updateSettings sink dbs userId pairs ctx now).result =
      .error (.auditFailed
        (sink (auditEventOf dbs userId pairs ctx now)).status) := by
  rw [updateSettings_eq_of_found sink dbs userId pairs ctx now u hu, if_neg]
  simp [hbad]

/-! ## Claims -/

/-- Claim C1: for every userId that does not reference an existing User and
every pairs list, `updateSettings` fails with the NotFound error
("User not found"), leaves the store untouched (zero Setting rows written),
and makes zero notification calls. -/
theorem updateSettings_user_not_found (sink : AuditEvent → AuditResp)
    (dbs : DB) (userId : String) (pairs : List (String × String))
    (ctx : Option String) (now : Nat)
    (h : ∀ u ∈ dbs.users, u.id ≠ userId) :
    (updateSettings sink dbs userId pairs ctx now).result =
      .error .userNotFound ∧
    (updateSettings sink dbs userId pairs ctx now).db = dbs ∧
    (updateSettings sink dbs userId pairs ctx now).auditCalls = [] := by
  have hf := users_find?_eq_none dbs userId h
  unfold updateSettings
  rw [hf]
  exact ⟨rfl, rfl, rfl⟩

/-- Witness for C1 at a store holding only user "u1" and the foreign id
"zz". -/
theorem updateSettings_user_not_found_witness :
    (∀ u ∈ exDB.users, u.id ≠ "zz") ∧
    (updateSettings okSink exDB "zz" [("k", "v")] none 5).result =
      .error .userNotFound ∧
    (updateSettings okSink exDB "zz" [("k", "v")] none 5).db = exDB ∧
    (updateSettings okSink exDB "zz" [("k", "v")] none 5).auditCalls = [] :=
  ⟨by decide,
   updateSettings_user_not_found okSink exDB "zz" [("k", "v")] none 5
     (by decide)⟩

/-- Counterexample to C2 as stated: with an existing row whose
`updated_by` is "carol", an update performed by actor "bob" leaves
`updated_by = some "carol"` — the updated-by field is not overwritten by
the conflict branch (`doUpdateSet` only sets `value` and `updated_at`). -/
theorem updateSettings_updatedBy_not_overwritten :
    ((updateSettings okSink seededDB "u1" [("k", "v2")]
        (some "bob") 5).db.settings.map (fun r => r.updated_by)) =
      [some "carol"] ∧
    (some "carol" : Option String) ≠ some "bob" :=
  ⟨rfl, by decide⟩

/-- Claim C2 (amended): for a pair whose (userId, key) already has a Setting
row, the upsert overwrites the existing row's value and timestamp, keeps
its id and its updated-by field unchanged, and creates no duplicate row
for that key. -/
theorem updateSettings_upsert_existing (sink : AuditEvent → AuditResp)
    (dbs : DB) (userId k v : String) (ctx : Option String) (now : Nat)
    (u : UserRow) (r0 : SettingRow)
    (hu : dbs.users.find? (fun x => x.id == userId) = some u)
    (hr : dbs.settings.find? (fun r => r.user_id == userId && r.key == k) =
      some r0) :
    (updateSettings sink dbs userId [(k, v)] ctx now).db.settings.countP
        (fun r => r.user_id == userId && r.key == k) =
      dbs.settings.countP (fun r => r.user_id == userId && r.key == k) ∧
    ∃ r1 ∈ (updateSettings sink dbs userId [(k, v)] ctx now).db.settings,
      r1.id = r0.id ∧ r1.key = r0.key ∧ r1.value = v ∧
      r1.updated_at = now ∧ r1.updated_by = r0.updated_by := by
  have hdb := updateSettings_db_of_found sink dbs userId [(k, v)] ctx now u hu
  have hrun : (runPairs userId now ctx dbs [(k, v)]).1 =
      (upsertSetting dbs userId now ctx k v).2 := by
    rw [runPairs_cons, runPairs_nil]
  have hup : (upsertSetting dbs userId now ctx k v).2.settings =
      replaceFirst (fun r => r.user_id == userId && r.key == k)
        { r0 with value := v, updated_at := now } dbs.settings := by
    unfold upsertSetting
    rw [hr]
  have h0 := List.find?_some hr
  simp only [Bool.and_eq_true, beq_iff_eq] at h0
  have hp1 : (fun r => r.user_id == userId && r.key == k)
      ({ r0 with value := v, updated_at := now } : SettingRow) = true := by
    simp [h0.1, h0.2]
  constructor
  · rw [hdb, hrun, hup]
    exact replaceFirst_countP _ _ hp1 dbs.settings
  · refine ⟨{ r0 with value := v, updated_at := now }, ?_,
      rfl, rfl, rfl, rfl, rfl⟩
    rw [hdb, hrun, hup]
    exact self_mem_replaceFirst _ _ dbs.settings r0 hr

/-- Witness for the amended C2: user "u1" updating its existing "k" row. -/
theorem updateSettings_upsert_existing_witness :
    seededDB.users.find? (fun x => x.id == "u1") = some alice ∧
    seededDB.settings.find?
        (fun r => r.user_id == "u1" && r.key == "k") = some seededRow ∧
    ((updateSettings okSink seededDB "u1" [("k", "v2")]
        (some "bob") 5).db.settings.countP
          (fun r => r.user_id == "u1" && r.key == "k")) =
      seededDB.settings.countP
        (fun r => r.user_id == "u1" && r.key == "k") :=
  ⟨rfl, rfl,
   (updateSettings_upsert_existing okSink seededDB "u1" "k" "v2"
     (some "bob") 5 alice seededRow rfl rfl).1⟩

/-- Claim C3: when the audit sink answers the invocation's event with a
non-success status, `updateSettings` reports an explicit error to the
caller, yet the store is exactly the post-upsert store: every pair of the
batch has a committed row stamped with this invocation's timestamp. -/
theorem updateSettings_notify_failure (sink : AuditEvent → AuditResp)
    (dbs : DB) (userId : String) (pairs : List (String × String))
    (ctx : Option String) (now : Nat) (u : UserRow)
    (hu : dbs.users.find? (fun x => x.id == userId) = some u)
    (hbad : (sink (auditEventOf dbs userId pairs ctx now)).ok = false) :
    (updateSettings sink dbs userId pairs ctx now).result =
      .error (.auditFailed
        (sink (auditEventOf dbs userId pairs ctx now)).status) ∧
    (updateSettings sink dbs userId pairs ctx now).db =
      (runPairs userId now ctx dbs pairs).1 ∧
    ∀ kv ∈ pairs,
      ∃ r ∈ (updateSettings sink dbs userId pairs ctx now).db.settings,
        r.user_id = userId ∧ r.key = kv.1 ∧ r.updated_at = now := by
  refine ⟨updateSettings_result_of_found_bad sink dbs userId pairs ctx now
    u hu hbad,
    updateSettings_db_of_found sink dbs userId pairs ctx now u hu, ?_⟩
  intro kv hkv
  rw [updateSettings_db_of_found sink dbs userId pairs ctx now u hu]
  exact runPairs_commits userId now ctx pairs dbs kv.1 kv.2 (by simpa using hkv)

/-- Witness for C3: a failing sink on a one-pair batch for user "u1". -/
theorem updateSettings_notify_failure_witness :
    exDB.users.find? (fun x => x.id == "u1") = some alice ∧
    (badSink (auditEventOf exDB "u1" [("a", "1")] none 7)).ok = false ∧
    (updateSettings badSink exDB "u1" [("a", "1")] none 7).result =
      .error (.auditFailed
        (badSink (auditEventOf exDB "u1" [("a", "1")] none 7)).status) :=
  ⟨rfl, rfl,
   (updateSettings_notify_failure badSink exDB "u1" [("a", "1")] none 7
     alice rfl rfl).1⟩

/-- Claim C4: a successful invocation makes exactly one notification call;
the event is built from the results of the whole batch of upserts and its
changes list is exactly the invocation's (key, value) pairs in processed
order — never one event per key, never a partial event. -/
theorem updateSettings_single_event (sink : AuditEvent → AuditResp)
    (dbs : DB) (userId : String) (pairs : List (String × String))
    (ctx : Option String) (now : Nat) (u : UserRow)
    (hu : dbs.users.find? (fun x => x.id == userId) = some u)
    (hok : (sink (auditEventOf dbs userId pairs ctx now)).ok = true) :
    (updateSettings sink dbs userId pairs ctx now).auditCalls =
      [auditEventOf dbs userId pairs ctx now] ∧
    (auditEventOf dbs userId pairs ctx now).changes = pairs ∧
    (updateSettings sink dbs userId pairs ctx now).result =
      .ok { success := true, user := mkUserView u,
            settings := (runPairs userId now ctx dbs pairs).2 } := by
  refine ⟨updateSettings_auditCalls_of_found sink dbs userId pairs ctx now
    u hu, ?_,
    updateSettings_result_of_found_ok sink dbs userId pairs ctx now u hu hok⟩
  show (mkAuditEvent userId ctx now
    (runPairs userId now ctx dbs pairs).2).changes = pairs
  simp only [mkAuditEvent]
  exact runPairs_map_kv userId now ctx pairs dbs

/-- Witness for C4: a two-pair batch for user "u1" with an accepting sink. -/
theorem updateSettings_single_event_witness :
    exDB.users.find? (fun x => x.id == "u1") = some alice ∧
    (okSink (auditEventOf exDB "u1" [("a", "1"), ("b", "2")] none 7)).ok =
      true ∧
    (auditEventOf exDB "u1" [("a", "1"), ("b", "2")] none 7).changes =
      [("a", "1"), ("b", "2")] :=
  ⟨rfl, rfl,
   (updateSettings_single_event okSink exDB "u1" [("a", "1"), ("b", "2")]
     none 7 alice rfl rfl).2.1⟩

/-- Claim C5: one invocation stamps a single timestamp everywhere: every
entry of a returned payload renders it, every settings row the invocation
wrote (any row not already in the store beforehand) carries it, and every
audit event it sent carries it. -/
theorem updateSettings_single_timestamp (sink : AuditEvent → AuditResp)
    (dbs : DB) (userId : String) (pairs : List (String × String))
    (ctx : Option String) (now : Nat) :
    (∀ p, (updateSettings sink dbs userId pairs ctx now).result = .ok p →
      ∀ e ∈ p.settings, e.updatedAt = toISOString now) ∧
    (∀ r ∈ (updateSettings sink dbs userId pairs ctx now).db.settings,
      r ∈ dbs.settings ∨ r.updated_at = now) ∧
    (∀ ev ∈ (updateSettings sink dbs userId pairs ctx now).auditCalls,
      ev.atTime = toISOString now) := by
  cases hu : dbs.users.find? (fun x => x.id == userId) with
  | none =>
      unfold updateSettings
      rw [hu]
      refine ⟨?_, ?_, ?_⟩
      · intro p hp
        simp at hp
      · intro r hr
        left
        exact hr
      · intro ev hev
        simp at hev
  | some u =>
      refine ⟨?_, ?_, ?_⟩
      · intro p hp
        cases hok : (sink (auditEventOf dbs userId pairs ctx now)).ok with
        | false =>
            rw [updateSettings_result_of_found_bad sink dbs userId pairs
              ctx now u hu hok] at hp
            simp at hp
        | true =>
            rw [updateSettings_result_of_found_ok sink dbs userId pairs
              ctx now u hu hok] at hp
            simp only [Except.ok.injEq] at hp
            intro e he
            rw [← hp] at he
            exact runPairs_updatedAt userId now ctx pairs dbs e he
      · intro r hr
        rw [updateSettings_db_of_found sink dbs userId pairs ctx now u hu]
          at hr
        exact runPairs_mem_settings userId now ctx pairs dbs r hr
      · intro ev hev
        rw [updateSettings_auditCalls_of_found sink dbs userId pairs ctx
          now u hu] at hev
        simp only [List.mem_singleton] at hev
        rw [hev]
        rfl

/-- Witness for C5: the payload entry of a one-pair batch renders the
invocation timestamp 7. -/
theorem updateSettings_single_timestamp_witness :
    (updateSettings okSink exDB "u1" [("a", "1")] none 7).result =
      .ok { success := true, user := mkUserView alice,
            settings := [{ id := "uuid-0", key := "a", value := "1",
                           updatedAt := toISOString 7,
                           updatedById := none }] } ∧
    UpdatedEntry.updatedAt
      { id := "uuid-0", key := "a", value := "1",
        updatedAt := toISOString 7, updatedById := none } = toISOString 7 :=
  ⟨rfl,
   (updateSettings_single_timestamp okSink exDB "u1" [("a", "1")] none 7).1
     { success := true, user := mkUserView alice,
       settings := [{ id := "uuid-0", key := "a", value := "1",
                      updatedAt := toISOString 7, updatedById := none }] }
     rfl
     { id := "uuid-0", key := "a", value := "1",
       updatedAt := toISOString 7, updatedById := none }
     (by simp)⟩

/-- Claim C6: a successful invocation returns a payload whose settings list
has one entry per input pair and preserves the input pairs' order: mapping
each entry back to its (key, value) reproduces the input list exactly. -/
theorem updateSettings_payload_order (sink : AuditEvent → AuditResp)
    (dbs : DB) (userId : String) (pairs : List (String × String))
    (ctx : Option String) (now : Nat) (u : UserRow)
    (hu : dbs.users.find? (fun x => x.id == userId) = some u)
    (hok : (sink (auditEventOf dbs userId pairs ctx now)).ok = true) :
    ∃ p, (updateSettings sink dbs userId pairs ctx now).result = .ok p ∧
      p.settings.map (fun s => (s.key, s.value)) = pairs ∧
      p.settings.length = pairs.length := by
  refine ⟨{ success := true, user := mkUserView u,
            settings := (runPairs userId now ctx dbs pairs).2 },
    updateSettings_result_of_found_ok sink dbs userId pairs ctx now u hu hok,
    ?_, ?_⟩
  · exact runPairs_map_kv userId now ctx pairs dbs
  · exact runPairs_length userId now ctx pairs dbs

/-- Witness for C6: a two-pair batch for user "u1". -/
theorem updateSettings_payload_order_witness :
    exDB.users.find? (fun x => x.id == "u1") = some alice ∧
    (okSink (auditEventOf exDB "u1" [("b", "2"), ("a", "1")] none 7)).ok =
      true ∧
    ∃ p, (updateSettings okSink exDB "u1" [("b", "2"), ("a", "1")]
        none 7).result = .ok p ∧
      p.settings.map (fun s => (s.key, s.value)) = [("b", "2"), ("a", "1")] ∧
      p.settings.length = ([("b", "2"), ("a", "1")] :
        List (String × String)).length :=
  ⟨rfl, rfl,
   updateSettings_payload_order okSink exDB "u1" [("b", "2"), ("a", "1")]
     none 7 alice rfl rfl⟩

/-- Claim C7: `users` returns one entry per requested id in input order;
the entry at each position is determined by that id alone, and an id with
no matching user yields an in-place absent marker (`some none` under `[i]?`
indexing: the position exists, its content is absent) rather than an
error. -/
theorem usersQuery_independent_lookups (dbs : DB) (ids : List String)
    (i : Nat) (id : String) (h : ids[i]? = some id) :
    (usersQuery dbs ids).length = ids.length ∧
    (usersQuery dbs ids)[i]? =
      some ((dbs.users.find? (fun u => u.id == id)).map mkUserView) ∧
    (dbs.users.find? (fun u => u.id == id) = none →
      (usersQuery dbs ids)[i]? = some none) := by
  refine ⟨by simp [usersQuery], ?_, ?_⟩
  · rw [usersQuery, List.getElem?_map, h]
    rfl
  · intro hnone
    rw [usersQuery, List.getElem?_map, h]
    simp [hnone]

/-- Witness for C7: looking up an existing id and a missing id gives a
two-entry answer whose second entry is the absent marker. -/
theorem usersQuery_independent_lookups_witness :
    (["u1", "zz"] : List String)[1]? = some "zz" ∧
    (usersQuery exDB ["u1", "zz"]).length = 2 ∧
    (usersQuery exDB ["u1", "zz"])[1]? = some none :=
  ⟨rfl,
   (usersQuery_independent_lookups exDB ["u1", "zz"] 1 "zz" rfl).1,
   (usersQuery_independent_lookups exDB ["u1", "zz"] 1 "zz" rfl).2.2 rfl⟩

/-- Counterexample to C8 as stated: the remote call returns a semantic
error "bad type" without throwing, and the caller sees the generic
"Invalid schema" failure, not that specific error — the `throw error`
inside the `try` is caught by the surrounding `catch`. -/
theorem schemaValidator_error_not_surfaced :
    schemaValidator (Except.ok { error := some "bad type" }) "x INT" =
      .error "Invalid schema" ∧
    ("Invalid schema" : String) ≠ "bad type" :=
  ⟨rfl, by decide⟩

/-- Claim C8 (amended): for every non-empty value, if the remote call
returns a semantic error in its response (without itself throwing),
validate fails — but the failure surfaced to the caller is the generic
"Invalid schema" error; the specific remote error is discarded. -/
theorem schemaValidator_remote_error_generic (r : RemoteResult)
    (value e : String) (hv : value ≠ "") (he : r.error = some e) :
    schemaValidator (Except.ok r) value = .error "Invalid schema" := by
  simp [schemaValidator, schemaValidatorBody, hv, he]

/-- Witness for the amended C8 at a concrete remote error. -/
theorem schemaValidator_remote_error_generic_witness :
    ("x INT" : String) ≠ "" ∧
    ({ error := some "bad type" } : RemoteResult).error = some "bad type" ∧
    schemaValidator (Except.ok { error := some "bad type" }) "x INT" =
      .error "Invalid schema" :=
  ⟨by decide, rfl,
   schemaValidator_remote_error_generic { error := some "bad type" }
     "x INT" "bad type" (by decide) rfl⟩

/-- Claim C9: with an existing user and an empty pairs list, no row is
written (the store is unchanged), the notification is still attempted —
exactly one audit call, whose changes list is empty — and the call
succeeds precisely when the sink accepts that event. -/
theorem updateSettings_empty_pairs (sink : AuditEvent → AuditResp)
    (dbs : DB) (userId : String) (ctx : Option String) (now : Nat)
    (u : UserRow)
    (hu : dbs.users.find? (fun x => x.id == userId) = some u) :
    (updateSettings sink dbs userId [] ctx now).db = dbs ∧
    (updateSettings sink dbs userId [] ctx now).auditCalls =
      [mkAuditEvent userId ctx now []] ∧
    (mkAuditEvent userId ctx now []).changes = [] ∧
    ((sink (mkAuditEvent userId ctx now [])).ok = true →
      (updateSettings sink dbs userId [] ctx now).result =
        .ok { success := true, user := mkUserView u, settings := [] }) ∧
    ((sink (mkAuditEvent userId ctx now [])).ok = false →
      (updateSettings sink dbs userId [] ctx now).result =
        .error (.auditFailed
          (sink (mkAuditEvent userId ctx now [])).status)) := by
  refine ⟨?_, ?_, rfl, ?_, ?_⟩
  · rw [updateSettings_db_of_found sink dbs userId [] ctx now u hu]
    rfl
  · rw [updateSettings_auditCalls_of_found sink dbs userId [] ctx now u hu]
    rfl
  · intro hok
    exact updateSettings_result_of_found_ok sink dbs userId [] ctx now
      u hu hok
  · intro hbad
    exact updateSettings_result_of_found_bad sink dbs userId [] ctx now
      u hu hbad

/-- Witness for C9: the empty batch for user "u1" with an accepting sink
leaves the store unchanged and succeeds. -/
theorem updateSettings_empty_pairs_witness :
    exDB.users.find? (fun x => x.id == "u1") = some alice ∧
    (updateSettings okSink exDB "u1" [] (some "bob") 5).db = exDB ∧
    (updateSettings okSink exDB "u1" [] (some "bob") 5).result =
      .ok { success := true, user := mkUserView alice, settings := [] } :=
  ⟨rfl,
   (updateSettings_empty_pairs okSink exDB "u1" (some "bob") 5 alice rfl).1,
   (updateSettings_empty_pairs okSink exDB "u1" (some "bob") 5 alice
     rfl).2.2.2.1 rfl⟩

/-- Claim C10: every payload `updateSettings` actually returns carries
`success = true`; failure is signalled only through a thrown error, never
through a returned payload with `success = false`. -/
theorem updateSettings_success_flag (sink : AuditEvent → AuditResp)
    (dbs : DB) (userId : String) (pairs : List (String × String))
    (ctx : Option String) (now : Nat) (p : SettingsPayload)
    (h : (updateSettings sink dbs userId pairs ctx now).result = .ok p) :
    p.success = true := by
  cases hu : dbs.users.find? (fun x => x.id == userId) with
  | none =>
      unfold updateSettings at h
      rw [hu] at h
      simp at h
  | some u =>
      cases hok : (sink (auditEventOf dbs userId pairs ctx now)).ok with
      | true =>
          rw [updateSettings_result_of_found_ok sink dbs userId pairs ctx
            now u hu hok] at h
          simp only [Except.ok.injEq] at h
          rw [← h]
      | false =>
          rw [updateSettings_result_of_found_bad sink dbs userId pairs ctx
            now u hu hok] at h
          simp at h

/-- Witness for C10 at a concrete successful invocation. -/
theorem updateSettings_success_flag_witness :
    (updateSettings okSink exDB "u1" [] none 5).result =
      .ok { success := true, user := mkUserView alice, settings := [] } ∧
    ({ success := true, user := mkUserView alice,
       settings := [] } : SettingsPayload).success = true :=
  ⟨rfl,
   updateSettings_success_flag okSink exDB "u1" [] none 5
     { success := true, user := mkUserView alice, settings := [] } rfl⟩
